import Mathlib

/-!
# STM32 Open Bootloader: FLASH interface

Shallow embedding of `open_bootloader/src/flash_interface.c`.

* Machine integers are `Nat`; `uint32_t` arithmetic is reduced `% 2 ^ 32` where the
  source can wrap.
* The driver is state passing over `Flash`: the lock bits of the FLASH controller,
  the staged option bytes, the registered post-processing callback and the
  chronological log of every primitive the driver calls.
* The HAL / `Common_*` primitives are external to the file; each is modelled by
  its effect on `Flash` plus an entry in the log.
* Constants that come from headers which are not part of the sources are fields of
  `Config`.
-/

namespace OpenBL

/-- Return codes of the HAL (`HAL_StatusTypeDef`). -/
inductive HAL_StatusTypeDef
  | HAL_OK
  | HAL_ERROR
  | HAL_BUSY
  | HAL_TIMEOUT
  deriving DecidableEq

/-- Return codes of the driver (`ErrorStatus`). -/
inductive ErrorStatus
  | SUCCESS
  | ERROR
  deriving DecidableEq

/-- Routines that can be registered as post-processing callback. -/
inductive Callback
  | OPENBL_OB_Launch
  deriving DecidableEq

/-- One call of an external primitive, as seen by the hardware / the collaborators. -/
inductive Event
  /-- Call of `HAL_FLASH_Unlock()` -/
  | HAL_FLASH_Unlock
  /-- Call of `HAL_FLASH_Lock()` -/
  | HAL_FLASH_Lock
  /-- Call of `HAL_FLASH_OB_Unlock()` -/
  | HAL_FLASH_OB_Unlock
  /-- Call of `__HAL_FLASH_CLEAR_FLAG(FLASH_FLAG_ALL_ERRORS)` -/
  | CLEAR_FLAG_ALL_ERRORS
  /-- Call of `HAL_FLASH_Program(FLASH_TYPEPROGRAM_DOUBLEWORD, Address, Data)`: the target
  address, the eight bytes found at the source pointer `Data`, and the status the
  HAL reported. -/
  | HAL_FLASH_Program (Address : Nat) (unit : List Nat) (status : HAL_StatusTypeDef)
  /-- Call of `HAL_FLASHEx_Erase(&EraseInitStruct, &SectorError)`: first sector and number
  of sectors. -/
  | HAL_FLASHEx_Erase (Sector : Nat) (NbSectors : Nat)
  /-- A call of `OPENBL_FLASH_ExtendedErase` with the given `Banks` selector. -/
  | OPENBL_FLASH_ExtendedErase (Banks : Nat)
  /-- Call of `HAL_FLASHEx_OBProgram(&flash_ob)` -/
  | HAL_FLASHEx_OBProgram (OptionType : Nat) (RDPLevel : Nat)
  /-- Call of `Common_SetPostProcessingCallback(cb)` -/
  | Common_SetPostProcessingCallback (cb : Callback)
  /-- Call of `OPENBL_DeInit()` -/
  | OPENBL_DeInit
  /-- Call of `Common_EnableIrq()` -/
  | Common_EnableIrq
  /-- Call of `Common_SetMsp(value)` -/
  | Common_SetMsp (value : Nat)
  /-- Call through the function pointer `jump_to_address`. -/
  | jump_to_address (entry : Nat)
  deriving DecidableEq

/-- Header constants used by the driver whose definitions are not in the sources. -/
structure Config where
  OB_RDP_LEVEL2 : Nat
  OPTIONBYTE_RDP : Nat
  FLASH_MASS_ERASE : Nat
  FLASH_BANK1_ERASE : Nat
  FLASH_BANK2_ERASE : Nat
  FLASH_BANK_1 : Nat
  FLASH_BANK_2 : Nat
  deriving DecidableEq

/-- The values these constants have in the vendor headers of the STM32F7 family. -/
def stm32f7 : Config where
  OB_RDP_LEVEL2 := 0xCC
  OPTIONBYTE_RDP := 0x02
  FLASH_MASS_ERASE := 0xFFFF
  FLASH_BANK1_ERASE := 0xFFFE
  FLASH_BANK2_ERASE := 0xFFFD
  FLASH_BANK_1 := 1
  FLASH_BANK_2 := 2

/-- Value `DISABLE` of `FunctionalState`, as the CMSIS device header declares it. -/
def DISABLE : Nat := 0

/-- Value `ENABLE` of `FunctionalState`, as the CMSIS device header declares it. -/
def ENABLE : Nat := 1

/-- State of the storage controller together with the log of primitive calls. -/
structure Flash where
  /-- the FLASH control register is locked -/
  locked : Bool
  /-- the option-byte registers are locked -/
  obLocked : Bool
  /-- read-protection level staged in the option bytes -/
  RDPLevel : Nat
  /-- regions whose write protection is staged in the option bytes -/
  wrp : List Nat
  /-- registered post-processing callback, if any -/
  callback : Option Callback
  /-- primitives called so far, oldest first -/
  trace : List Event
  deriving DecidableEq

/-- Controller after reset: everything locked, nothing staged, nothing logged. -/
def Flash.reset : Flash where
  locked := true
  obLocked := true
  RDPLevel := 0xAA
  wrp := []
  callback := none
  trace := []

/-- Append one primitive call to the log. -/
def Flash.log (s : Flash) (e : Event) : Flash :=
  { s with trace := s.trace ++ [e] }

/-! ## External primitives -/

/-- Modelled from the spec: the controller-unlock primitive `HAL_FLASH_Unlock`,
which is not part of the sources; it clears the lock of the control register. -/
def HAL_FLASH_Unlock (s : Flash) : Flash :=
  { s with locked := false, trace := s.trace ++ [Event.HAL_FLASH_Unlock] }

/-- Modelled from the spec: the controller-lock primitive `HAL_FLASH_Lock`,
which is not part of the sources; it sets the lock of the control register. -/
def HAL_FLASH_Lock (s : Flash) : Flash :=
  { s with locked := true, trace := s.trace ++ [Event.HAL_FLASH_Lock] }

/-- Modelled from the spec: `HAL_FLASH_OB_Unlock`, which is not part of the
sources; it clears the lock of the option-byte registers. -/
def HAL_FLASH_OB_Unlock (s : Flash) : Flash :=
  { s with obLocked := false, trace := s.trace ++ [Event.HAL_FLASH_OB_Unlock] }

/-- Modelled from the spec: `__HAL_FLASH_CLEAR_FLAG(FLASH_FLAG_ALL_ERRORS)`, a
macro that is not part of the sources; only the call is logged. -/
def HAL_FLASH_CLEAR_FLAG (s : Flash) : Flash :=
  s.log Event.CLEAR_FLAG_ALL_ERRORS

/-- Eight bytes starting at offset `off` of the buffer `buf`, as a double-word
program reads them through the pointer `buf + off`. -/
def readUnit (buf : List Nat) (off : Nat) : List Nat :=
  (List.range 8).map (fun j => buf.getD (off + j) 0)

/-- Modelled from the spec: the single-unit blocking program primitive
`HAL_FLASH_Program`, which is not part of the sources. `hal` gives the status the
hardware reports for a program of the given target address; the unit is what the
source pointer points at. -/
def HAL_FLASH_Program (hal : Nat → HAL_StatusTypeDef) (s : Flash) (Address : Nat)
    (unit : List Nat) : HAL_StatusTypeDef × Flash :=
  (hal Address, s.log (Event.HAL_FLASH_Program Address unit (hal Address)))

/-- Option-byte programming request (`FLASH_OBProgramInitTypeDef`), restricted to
the fields the driver assigns. -/
structure FLASH_OBProgramInitTypeDef where
  OptionType : Nat
  RDPLevel : Nat
  deriving DecidableEq

/-- Modelled from the spec: the set primitive for the configuration-register-backed
protection fields, `HAL_FLASHEx_OBProgram`, which is not part of the sources. A
request of option type RDP stages the requested read-protection level. -/
def HAL_FLASHEx_OBProgram (c : Config) (s : Flash) (ob : FLASH_OBProgramInitTypeDef) :
    Flash :=
  { s with
    RDPLevel := if ob.OptionType = c.OPTIONBYTE_RDP then ob.RDPLevel else s.RDPLevel
    trace := s.trace ++ [Event.HAL_FLASHEx_OBProgram ob.OptionType ob.RDPLevel] }

/-- Modelled from the spec: `Common_SetPostProcessingCallback`, which is not part
of the sources; it stores the callback in the single registration slot. -/
def Common_SetPostProcessingCallback (s : Flash) (cb : Callback) : Flash :=
  { s with
    callback := some cb
    trace := s.trace ++ [Event.Common_SetPostProcessingCallback cb] }

/-- Modelled from the spec: peripheral de-initialisation `OPENBL_DeInit`, which is
not part of the sources; only the call is logged. -/
def OPENBL_DeInit (s : Flash) : Flash :=
  s.log Event.OPENBL_DeInit

/-- Modelled from the spec: `Common_EnableIrq`, which is not part of the sources;
only the call is logged. -/
def Common_EnableIrq (s : Flash) : Flash :=
  s.log Event.Common_EnableIrq

/-- Modelled from the spec: `Common_SetMsp`, which is not part of the sources; only
the call is logged. -/
def Common_SetMsp (s : Flash) (value : Nat) : Flash :=
  s.log (Event.Common_SetMsp value)

/-! ## The driver -/

/-- Source function `OPENBL_FLASH_Unlock` -/
def OPENBL_FLASH_Unlock (s : Flash) : Flash :=
  HAL_FLASH_Unlock s

/-- Source function `OPENBL_FLASH_Lock` -/
def OPENBL_FLASH_Lock (s : Flash) : Flash :=
  HAL_FLASH_Lock s

/-- Source function `OPENBL_FLASH_OB_Unlock` -/
def OPENBL_FLASH_OB_Unlock (s : Flash) : Flash :=
  HAL_FLASH_OB_Unlock (HAL_FLASH_Unlock s)

/-- Source function `OPENBL_FLASH_ProgramDoubleWord`: the status of `HAL_FLASH_Program`
is dropped. -/
def OPENBL_FLASH_ProgramDoubleWord (hal : Nat → HAL_StatusTypeDef) (s : Flash)
    (Address : Nat) (unit : List Nat) : Flash :=
  (HAL_FLASH_Program hal s Address unit).2

/-- Source function `OPENBL_FLASH_ExtendedErase`: the body is `return HAL_OK;`. The call
itself is logged, no hardware primitive is reached. -/
def OPENBL_FLASH_ExtendedErase (s : Flash) (Banks : Nat) : HAL_StatusTypeDef × Flash :=
  (HAL_StatusTypeDef.HAL_OK, s.log (Event.OPENBL_FLASH_ExtendedErase Banks))

/-- Source function `EraseFlash`. The call of `HAL_FLASHEx_Erase` is commented out in the
source, so the local `status` is read without having been assigned; the parameter
`status` is that indeterminate value. -/
def EraseFlash (status : HAL_StatusTypeDef) (s : Flash) (_Address _DataLength : Nat) :
    ErrorStatus × Flash :=
  let s := OPENBL_FLASH_Unlock s
  let s := HAL_FLASH_CLEAR_FLAG s
  let s := HAL_FLASH_Lock s
  if status ≠ HAL_StatusTypeDef.HAL_OK then
    (ErrorStatus.ERROR, s)
  else
    (ErrorStatus.SUCCESS, s)

/-- First loop of `OPENBL_FLASH_Write`:
`for (index = 0; index < remainder; index++) remainder_data[index] = *(Data + length + index);` -/
def copyRemainder (Data : List Nat) (length remainder : Nat) (remainder_data : List Nat) :
    List Nat :=
  (List.range remainder).foldl
    (fun rd index => rd.set index (Data.getD (length + index) 0)) remainder_data

/-- Second loop of `OPENBL_FLASH_Write`:
`for (index = remainder; index < 8; index++) remainder_data[index] = 0xFF;` -/
def fillRemainder (remainder : Nat) (remainder_data : List Nat) : List Nat :=
  (List.range' remainder (8 - remainder)).foldl
    (fun rd index => rd.set index 0xFF) remainder_data

/-- Program loop of `OPENBL_FLASH_Write`, with `index` a `uint32_t`:
`for (index = 0; index < length; index += 8)`
`  OPENBL_FLASH_ProgramDoubleWord(Address + index, Data + index);`
The result is `none` when the fuel runs out. -/
def programLoop (hal : Nat → HAL_StatusTypeDef) (Address : Nat) (Data : List Nat)
    (length : Nat) : Nat → Nat → Flash → Option Flash
  | 0, _, _ => none
  | fuel + 1, index, s =>
    if index < length then
      programLoop hal Address Data length fuel ((index + 8) % 2 ^ 32)
        (OPENBL_FLASH_ProgramDoubleWord hal s ((Address + index) % 2 ^ 32) (readUnit Data index))
    else
      some s

/-- Source function `OPENBL_FLASH_Write`. The function is `void`: what the caller gets
back is `()`. `hal` is the status the hardware reports for each unit program, `status`
the unassigned local of `EraseFlash`, `fuel` bounds the steps of the program loop. -/
def OPENBL_FLASH_Write (hal : Nat → HAL_StatusTypeDef) (status : HAL_StatusTypeDef)
    (fuel : Nat) (s : Flash) (Address : Nat) (Data : List Nat) (DataLength : Nat) :
    Option (Unit × Flash) :=
  let length := DataLength
  let remainder_data : List Nat := List.replicate 8 0
  let remainder := length &&& 0x7
  let length := if remainder ≠ 0 then length &&& 0xFFFFFFF8 else length
  let remainder_data :=
    if remainder ≠ 0 then
      fillRemainder remainder (copyRemainder Data length remainder remainder_data)
    else
      remainder_data
  let s := OPENBL_FLASH_Unlock s
  let s := (EraseFlash status s Address DataLength).2
  match programLoop hal Address Data length fuel 0 s with
  | none => none
  | some s =>
    let s :=
      if remainder ≠ 0 then
        OPENBL_FLASH_ProgramDoubleWord hal s ((Address + length) % 2 ^ 32) remainder_data
      else
        s
    some ((), OPENBL_FLASH_Lock s)

/-- Source function `OPENBL_FLASH_JumpToAddress`. `mem` is the 32-bit word stored at an
address. The state returned is the one in which control is handed over. -/
def OPENBL_FLASH_JumpToAddress (mem : Nat → Nat) (s : Flash) (Address : Nat) : Flash :=
  let s := OPENBL_DeInit s
  let s := Common_EnableIrq s
  let jump_to_address := mem ((Address + 4) % 2 ^ 32)
  let s := Common_SetMsp s (mem Address)
  s.log (Event.jump_to_address jump_to_address)

/-- Source function `OPENBL_FLASH_SetReadOutProtectionLevel` -/
def OPENBL_FLASH_SetReadOutProtectionLevel (c : Config) (s : Flash) (Level : Nat) :
    Unit × Flash :=
  let s :=
    if Level ≠ c.OB_RDP_LEVEL2 then
      let flash_ob : FLASH_OBProgramInitTypeDef :=
        { OptionType := c.OPTIONBYTE_RDP, RDPLevel := Level }
      let s := OPENBL_FLASH_OB_Unlock s
      HAL_FLASHEx_OBProgram c s flash_ob
    else
      s
  ((), Common_SetPostProcessingCallback s Callback.OPENBL_OB_Launch)

/-- Source function `OPENBL_FLASH_EnableWriteProtection`: the body only returns
`SUCCESS`. -/
def OPENBL_FLASH_EnableWriteProtection (s : Flash) (_ListOfPages : List Nat)
    (_Length : Nat) : ErrorStatus × Flash :=
  (ErrorStatus.SUCCESS, s)

/-- Source function `OPENBL_FLASH_DisableWriteProtection`: the body only returns
`SUCCESS`. -/
def OPENBL_FLASH_DisableWriteProtection (s : Flash) : ErrorStatus × Flash :=
  (ErrorStatus.SUCCESS, s)

/-- Source function `OPENBL_FLASH_SetWriteProtection` -/
def OPENBL_FLASH_SetWriteProtection (s : Flash) (State : Nat) (ListOfPages : List Nat)
    (Length : Nat) : ErrorStatus × Flash :=
  if State = ENABLE then
    let s := (OPENBL_FLASH_EnableWriteProtection s ListOfPages Length).2
    (ErrorStatus.SUCCESS, Common_SetPostProcessingCallback s Callback.OPENBL_OB_Launch)
  else if State = DISABLE then
    let s := (OPENBL_FLASH_DisableWriteProtection s).2
    (ErrorStatus.SUCCESS, Common_SetPostProcessingCallback s Callback.OPENBL_OB_Launch)
  else
    (ErrorStatus.ERROR, s)

/-- Source function `OPENBL_FLASH_MassErase`. `bank_option` is the little-endian 16-bit
word at the start of `p_Data`; `Banks` is assigned only when the selector is known. -/
def OPENBL_FLASH_MassErase (c : Config) (s : Flash) (p_Data : List Nat) (DataLength : Nat) :
    ErrorStatus × Flash :=
  let s := OPENBL_FLASH_Unlock s
  let r : ErrorStatus × Flash :=
    if DataLength ≥ 2 then
      let bank_option := (p_Data.getD 0 0 + 256 * p_Data.getD 1 0) % 2 ^ 16
      let Banks : Option Nat :=
        if bank_option = c.FLASH_MASS_ERASE then some 0
        else if bank_option = c.FLASH_BANK1_ERASE then some c.FLASH_BANK_1
        else if bank_option = c.FLASH_BANK2_ERASE then some c.FLASH_BANK_2
        else none
      match Banks with
      | none => (ErrorStatus.ERROR, s)
      | some b =>
        let e := OPENBL_FLASH_ExtendedErase s b
        if e.1 ≠ HAL_StatusTypeDef.HAL_OK then (ErrorStatus.ERROR, e.2)
        else (ErrorStatus.SUCCESS, e.2)
    else
      (ErrorStatus.ERROR, s)
  (r.1, OPENBL_FLASH_Lock r.2)

/-- Source function `OPENBL_FLASH_Erase`. As in `EraseFlash`, the call of
`HAL_FLASHEx_Erase` is commented out and `status` is the indeterminate value of the
unassigned local. -/
def OPENBL_FLASH_Erase (status : HAL_StatusTypeDef) (s : Flash) (_Address : Nat)
    (_p_Data : List Nat) (_DataLength : Nat) : ErrorStatus × Flash :=
  let s := OPENBL_FLASH_Unlock s
  let s := HAL_FLASH_CLEAR_FLAG s
  let s := HAL_FLASH_Lock s
  if status ≠ HAL_StatusTypeDef.HAL_OK then
    (ErrorStatus.ERROR, s)
  else
    (ErrorStatus.SUCCESS, s)

/-! ## Reading the log -/

/-- The unit-program calls of a log, oldest first: target address and unit. -/
def programCalls : List Event → List (Nat × List Nat)
  | [] => []
  | Event.HAL_FLASH_Program a u _ :: es => (a, u) :: programCalls es
  | _ :: es => programCalls es

/-- The log contains an erase call, be it `HAL_FLASHEx_Erase` or
`OPENBL_FLASH_ExtendedErase`. -/
def hasErase : List Event → Bool
  | [] => false
  | Event.HAL_FLASHEx_Erase _ _ :: _ => true
  | Event.OPENBL_FLASH_ExtendedErase _ :: _ => true
  | _ :: es => hasErase es

/-- Replays a log from the lock state `locked` and tells whether every unit-program
call in it is made while the control register is unlocked. -/
def programsUnlocked : Bool → List Event → Bool
  | _, [] => true
  | _, Event.HAL_FLASH_Unlock :: es => programsUnlocked false es
  | _, Event.HAL_FLASH_Lock :: es => programsUnlocked true es
  | locked, Event.HAL_FLASH_Program _ _ _ :: es => !locked && programsUnlocked locked es
  | locked, _ :: es => programsUnlocked locked es

/-- The lock operations of a log, oldest first: the unlocks and locks of the control
register and the unlocks of the option-byte registers. -/
def lockOps : List Event → List Event
  | [] => []
  | Event.HAL_FLASH_Unlock :: es => Event.HAL_FLASH_Unlock :: lockOps es
  | Event.HAL_FLASH_Lock :: es => Event.HAL_FLASH_Lock :: lockOps es
  | Event.HAL_FLASH_OB_Unlock :: es => Event.HAL_FLASH_OB_Unlock :: lockOps es
  | _ :: es => lockOps es

/-- The lock operations issued between the state `s` and the later state `r`. -/
def lockOpsSince (s r : Flash) : List Event :=
  lockOps (r.trace.drop s.trace.length)

/-- The log with the status reported by each unit-program call blanked: the
sequence of operations the driver issued. -/
def issued : List Event → List Event
  | [] => []
  | Event.HAL_FLASH_Program a u _ :: es =>
    Event.HAL_FLASH_Program a u HAL_StatusTypeDef.HAL_OK :: issued es
  | e :: es => e :: issued es

/-- Closed form of what the program loop logs for the units `k, k+1, .., k+m-1`; used
to state `programLoop_spec`. -/
def progEvents (hal : Nat → HAL_StatusTypeDef) (Address : Nat) (Data : List Nat)
    (k m : Nat) : List Event :=
  (List.range' k m).map (fun i =>
    Event.HAL_FLASH_Program ((Address + 8 * i) % 2 ^ 32) (readUnit Data (8 * i))
      (hal ((Address + 8 * i) % 2 ^ 32)))

/-- Content of `remainder_data` after the two preparation loops of a write of
`DataLength` bytes. -/
def tailUnit (Data : List Nat) (DataLength : Nat) : List Nat :=
  fillRemainder (DataLength % 8)
    (copyRemainder Data (DataLength - DataLength % 8) (DataLength % 8) (List.replicate 8 0))

/-- Closed form of what one `OPENBL_FLASH_Write` logs, oldest first; used to state
`write_spec`. -/
def writeTrace (hal : Nat → HAL_StatusTypeDef) (Address : Nat) (Data : List Nat)
    (DataLength : Nat) : List Event :=
  [Event.HAL_FLASH_Unlock, Event.HAL_FLASH_Unlock, Event.CLEAR_FLAG_ALL_ERRORS,
    Event.HAL_FLASH_Lock]
  ++ progEvents hal Address Data 0 (DataLength / 8)
  ++ (if DataLength % 8 = 0 then []
      else [Event.HAL_FLASH_Program ((Address + (DataLength - DataLength % 8)) % 2 ^ 32)
        (tailUnit Data DataLength)
        (hal ((Address + (DataLength - DataLength % 8)) % 2 ^ 32))])
  ++ [Event.HAL_FLASH_Lock]

/-! ## Sequences of protection requests -/

/-- One call of a protection operation of the driver, with its arguments. -/
inductive ProtectionCall
  /-- Call of `OPENBL_FLASH_SetWriteProtection(State, ListOfPages, Length)` -/
  | SetWriteProtection (State : Nat) (ListOfPages : List Nat) (Length : Nat)
  /-- Call of `OPENBL_FLASH_SetReadOutProtectionLevel(Level)` -/
  | SetReadOutProtectionLevel (Level : Nat)
  deriving DecidableEq

/-- State in which the call returns. -/
def ProtectionCall.run (c : Config) (s : Flash) : ProtectionCall → Flash
  | ProtectionCall.SetWriteProtection State ListOfPages Length =>
    (OPENBL_FLASH_SetWriteProtection s State ListOfPages Length).2
  | ProtectionCall.SetReadOutProtectionLevel Level =>
    (OPENBL_FLASH_SetReadOutProtectionLevel c s Level).2

/-- The call made in state `s` is successful: `OPENBL_FLASH_SetWriteProtection` returns
`SUCCESS`; `OPENBL_FLASH_SetReadOutProtectionLevel` returns nothing and counts as
successful. -/
def ProtectionCall.succeeds (s : Flash) : ProtectionCall → Bool
  | ProtectionCall.SetWriteProtection State ListOfPages Length =>
    decide ((OPENBL_FLASH_SetWriteProtection s State ListOfPages Length).1 = ErrorStatus.SUCCESS)
  | ProtectionCall.SetReadOutProtectionLevel _ => true

/-- State after the calls of the list have been made one after the other. -/
def runCalls (c : Config) : Flash → List ProtectionCall → Flash
  | s, [] => s
  | s, x :: xs => runCalls c (x.run c s) xs

/-- Every call of the list is successful in the state in which it is made. -/
def allSucceed (c : Config) : Flash → List ProtectionCall → Bool
  | _, [] => true
  | s, x :: xs => x.succeeds s && allSucceed c (x.run c s) xs

/-! ## Reads of the caller's buffer -/

/-- Offsets of the data buffer that a double-word program reads through the pointer
`Data + index`. -/
def unitOffsets (index : Nat) : List Nat :=
  (List.range 8).map (fun j => index + j)

/-- First loop of `OPENBL_FLASH_Write` as in `copyRemainder`, keeping next to
`remainder_data` the offsets at which `*(Data + length + index)` reads `Data`. -/
def copyRemainderReads (Data : List Nat) (length remainder : Nat) (remainder_data : List Nat) :
    List Nat × List Nat :=
  (List.range remainder).foldl
    (fun acc index =>
      (acc.1.set index (Data.getD (length + index) 0), acc.2 ++ [length + index]))
    (remainder_data, [])

/-- Program loop of `OPENBL_FLASH_Write` as in `programLoop`, keeping next to the state
the offsets of `Data` read through the pointer `Data + index` of each program. -/
def programLoopReads (hal : Nat → HAL_StatusTypeDef) (Address : Nat) (Data : List Nat)
    (length : Nat) : Nat → Nat → Flash → List Nat → Option (Flash × List Nat)
  | 0, _, _, _ => none
  | fuel + 1, index, s, reads =>
    if index < length then
      programLoopReads hal Address Data length fuel ((index + 8) % 2 ^ 32)
        (OPENBL_FLASH_ProgramDoubleWord hal s ((Address + index) % 2 ^ 32) (readUnit Data index))
        (reads ++ unitOffsets index)
    else
      some (s, reads)

/-- Source function `OPENBL_FLASH_Write` as in the definition of that name, returning
next to its result the offsets at which the call reads the caller's buffer `Data`, in
the order of the reads. The last program takes its unit from `remainder_data` and
reads nothing of `Data`. -/
def OPENBL_FLASH_Write_reads (hal : Nat → HAL_StatusTypeDef) (status : HAL_StatusTypeDef)
    (fuel : Nat) (s : Flash) (Address : Nat) (Data : List Nat) (DataLength : Nat) :
    Option ((Unit × Flash) × List Nat) :=
  let length := DataLength
  let remainder_data : List Nat := List.replicate 8 0
  let remainder := length &&& 0x7
  let length := if remainder ≠ 0 then length &&& 0xFFFFFFF8 else length
  let copied : List Nat × List Nat :=
    if remainder ≠ 0 then
      let cp := copyRemainderReads Data length remainder remainder_data
      (fillRemainder remainder cp.1, cp.2)
    else
      (remainder_data, [])
  let remainder_data := copied.1
  let s := OPENBL_FLASH_Unlock s
  let s := (EraseFlash status s Address DataLength).2
  match programLoopReads hal Address Data length fuel 0 s copied.2 with
  | none => none
  | some (s, reads) =>
    let s :=
      if remainder ≠ 0 then
        OPENBL_FLASH_ProgramDoubleWord hal s ((Address + length) % 2 ^ 32) remainder_data
      else
        s
    some (((), OPENBL_FLASH_Lock s), reads)

/-! ## Arithmetic and list facts used by the proofs -/

theorem land_seven (n : Nat) : n &&& 0x7 = n % 8 :=
  Nat.and_pow_two_sub_one_eq_mod n 3

theorem land_mask (n : Nat) (h : n < 2 ^ 32) : n &&& 0xFFFFFFF8 = n - n % 8 := by
  have h8 : n - n % 8 = 2 ^ 3 * (n / 2 ^ 3) := by omega
  have hm : (0xFFFFFFF8 : Nat) = 2 ^ 3 * (2 ^ 29 - 1) := by norm_num
  rw [h8, hm]
  apply Nat.eq_of_testBit_eq
  intro i
  rw [Nat.testBit_land, Nat.testBit_mul_pow_two, Nat.testBit_mul_pow_two,
    Nat.testBit_two_pow_sub_one, ← Nat.shiftRight_eq_div_pow, Nat.testBit_shiftRight]
  by_cases h3 : i ≥ 3
  · have e : 3 + (i - 3) = i := by omega
    rw [e]
    by_cases h32 : i < 32
    · have : i - 3 < 29 := by omega
      simp [h3, this]
    · have hle : 2 ^ 32 ≤ 2 ^ i := Nat.pow_le_pow_right (by norm_num) (by omega)
      have : n.testBit i = false := Nat.testBit_lt_two_pow (lt_of_lt_of_le h hle)
      simp [this]
  · simp [h3]

theorem take_drop_eq_map_getD (Data : List Nat) (L r : Nat) (h : L + r ≤ Data.length) :
    (Data.drop L).take r = (List.range r).map (fun j => Data.getD (L + j) 0) := by
  apply List.ext_getElem
  · simp; omega
  · intro i h1 h2
    simp at h1 h2
    simp [List.getD_eq_getElem?_getD]
    have : L + i < Data.length := by omega
    simp [List.getElem?_eq_getElem this]

theorem readUnit_eq (Data : List Nat) (off : Nat) (h : off + 8 ≤ Data.length) :
    readUnit Data off = (Data.drop off).take 8 := by
  rw [take_drop_eq_map_getD Data off 8 h]; rfl

theorem tailUnit_eq (Data : List Nat) (DataLength : Nat) (h : DataLength ≤ Data.length)
    (hr : DataLength % 8 ≠ 0) :
    tailUnit Data DataLength =
      (Data.drop (DataLength - DataLength % 8)).take (DataLength % 8)
        ++ List.replicate (8 - DataLength % 8) 0xFF := by
  have hlt : DataLength % 8 < 8 := Nat.mod_lt _ (by norm_num)
  have hle : DataLength - DataLength % 8 + DataLength % 8 ≤ Data.length := by omega
  rw [take_drop_eq_map_getD Data _ _ hle]
  unfold tailUnit fillRemainder copyRemainder
  generalize DataLength - DataLength % 8 = L at *
  generalize DataLength % 8 = r at *
  interval_cases r <;> simp [List.range, List.range.loop, List.range', List.replicate] at hr ⊢

theorem programLoop_spec (hal : Nat → HAL_StatusTypeDef) (Address : Nat) (Data : List Nat)
    (n : Nat) (hn : n < 2 ^ 29) :
    ∀ (fuel k : Nat) (s : Flash), k ≤ n → n - k < fuel →
      programLoop hal Address Data (8 * n) fuel (8 * k) s =
        some { s with trace := s.trace ++ progEvents hal Address Data k (n - k) } := by
  intro fuel
  induction fuel with
  | zero => intro k s _ h; omega
  | succ fuel ih =>
    intro k s hk hf
    unfold programLoop
    by_cases hlt : k < n
    · have h1 : 8 * k < 8 * n := by omega
      have h2 : (8 * k + 8) % 2 ^ 32 = 8 * (k + 1) := by
        rw [Nat.mod_eq_of_lt] <;> omega
      rw [if_pos h1, h2, ih (k + 1) _ (by omega) (by omega)]
      have h3 : n - k = (n - (k + 1)) + 1 := by omega
      simp only [OPENBL_FLASH_ProgramDoubleWord, HAL_FLASH_Program, Flash.log, progEvents]
      rw [h3, List.range'_succ]
      simp
    · have h1 : ¬ 8 * k < 8 * n := by omega
      have h3 : n - k = 0 := by omega
      rw [if_neg h1, h3]
      simp [progEvents]

theorem write_spec (hal : Nat → HAL_StatusTypeDef) (status : HAL_StatusTypeDef)
    (fuel : Nat) (s : Flash) (Address : Nat) (Data : List Nat) (DataLength : Nat)
    (hL : DataLength < 2 ^ 32) (hf : DataLength / 8 < fuel) :
    OPENBL_FLASH_Write hal status fuel s Address Data DataLength =
      some ((), { s with
        locked := true
        trace := s.trace ++ writeTrace hal Address Data DataLength }) := by
  have hloop : ∀ s0 : Flash,
      programLoop hal Address Data (DataLength - DataLength % 8) fuel 0 s0 =
        some { s0 with trace := s0.trace ++ progEvents hal Address Data 0 (DataLength / 8) } := by
    intro s0
    have e : DataLength - DataLength % 8 = 8 * (DataLength / 8) := by omega
    have := programLoop_spec hal Address Data (DataLength / 8) (by omega) fuel 0 s0
      (Nat.zero_le _) (by omega)
    simpa [e] using this
  unfold OPENBL_FLASH_Write
  simp only [land_seven, land_mask DataLength hL]
  by_cases hr : DataLength % 8 = 0
  · have e0 : DataLength - DataLength % 8 = DataLength := by omega
    have hl := hloop
    rw [e0] at hl
    simp [hr, hl, writeTrace, EraseFlash, OPENBL_FLASH_Unlock, OPENBL_FLASH_Lock,
      HAL_FLASH_Unlock, HAL_FLASH_Lock, HAL_FLASH_CLEAR_FLAG, Flash.log]
    split <;> simp
  · simp [hr, hloop, writeTrace, tailUnit, EraseFlash, OPENBL_FLASH_Unlock, OPENBL_FLASH_Lock,
      HAL_FLASH_Unlock, HAL_FLASH_Lock, HAL_FLASH_CLEAR_FLAG, Flash.log,
      OPENBL_FLASH_ProgramDoubleWord, HAL_FLASH_Program]
    split <;> simp

theorem programCalls_append (a b : List Event) :
    programCalls (a ++ b) = programCalls a ++ programCalls b := by
  induction a with
  | nil => rfl
  | cons e es ih => cases e <;> simp [programCalls, ih]

theorem programCalls_progEvents (hal : Nat → HAL_StatusTypeDef) (Address : Nat)
    (Data : List Nat) (k m : Nat) :
    programCalls (progEvents hal Address Data k m) =
      (List.range' k m).map (fun i => ((Address + 8 * i) % 2 ^ 32, readUnit Data (8 * i))) := by
  unfold progEvents
  induction (List.range' k m) with
  | nil => rfl
  | cons i is ih => simpa [programCalls] using ih

theorem hasErase_append (a b : List Event) :
    hasErase (a ++ b) = (hasErase a || hasErase b) := by
  induction a with
  | nil => rfl
  | cons e es ih => cases e <;> simp [hasErase, ih]

theorem issued_append (a b : List Event) : issued (a ++ b) = issued a ++ issued b := by
  induction a with
  | nil => rfl
  | cons e es ih => cases e <;> simp [issued, ih]

theorem issued_progEvents (hal : Nat → HAL_StatusTypeDef) (Address : Nat)
    (Data : List Nat) (k m : Nat) :
    issued (progEvents hal Address Data k m) =
      progEvents (fun _ => HAL_StatusTypeDef.HAL_OK) Address Data k m := by
  unfold progEvents
  induction (List.range' k m) with
  | nil => rfl
  | cons i is ih => simpa [issued] using ih

theorem issued_writeTrace (hal : Nat → HAL_StatusTypeDef) (Address : Nat)
    (Data : List Nat) (DataLength : Nat) :
    issued (writeTrace hal Address Data DataLength) =
      writeTrace (fun _ => HAL_StatusTypeDef.HAL_OK) Address Data DataLength := by
  unfold writeTrace
  by_cases hr : DataLength % 8 = 0
  · simp [hr, issued_append, issued_progEvents, issued]
  · simp [hr, issued_append, issued_progEvents, issued]

theorem write_programCalls (hal : Nat → HAL_StatusTypeDef) (Address : Nat)
    (Data : List Nat) (DataLength : Nat) (hD : DataLength ≤ Data.length) :
    programCalls (writeTrace hal Address Data DataLength) =
      (List.range (DataLength / 8)).map
          (fun i => ((Address + 8 * i) % 2 ^ 32, (Data.drop (8 * i)).take 8))
        ++ (if DataLength % 8 = 0 then []
            else [((Address + 8 * (DataLength / 8)) % 2 ^ 32,
              (Data.drop (DataLength - DataLength % 8)).take (DataLength % 8)
                ++ List.replicate (8 - DataLength % 8) 0xFF)]) := by
  have e : DataLength - DataLength % 8 = 8 * (DataLength / 8) := by omega
  have hmap : (List.range' 0 (DataLength / 8)).map
        (fun i => ((Address + 8 * i) % 2 ^ 32, readUnit Data (8 * i))) =
      (List.range (DataLength / 8)).map
        (fun i => ((Address + 8 * i) % 2 ^ 32, (Data.drop (8 * i)).take 8)) := by
    rw [← List.range_eq_range']
    apply List.map_congr_left
    intro i hi
    have hi' : i < DataLength / 8 := List.mem_range.mp hi
    rw [readUnit_eq Data (8 * i) (by omega)]
  unfold writeTrace
  by_cases hr : DataLength % 8 = 0
  · rw [if_pos hr, if_pos hr, programCalls_append, programCalls_append, programCalls_append,
      programCalls_progEvents, hmap]
    simp [programCalls]
  · rw [if_neg hr, if_neg hr, programCalls_append, programCalls_append, programCalls_append,
      programCalls_progEvents, hmap, tailUnit_eq Data DataLength hD hr, e]
    simp [programCalls]

/-- C1: for a 32-bit `DataLength`, a buffer of at least `DataLength` bytes and enough
fuel, `OPENBL_FLASH_Write` returns, and the unit-program calls it adds to the log
are, in this order, one call per full unit `i < DataLength / 8` that targets
`(Address + 8 * i) % 2 ^ 32` with the bytes `Data[8i .. 8i+7]`, followed, when
`DataLength % 8 ≠ 0`, by one call that targets `(Address + 8 * (DataLength / 8)) % 2 ^ 32`
with the last `DataLength % 8` bytes of the data and then `0xFF` up to eight bytes;
that is `ceil (DataLength / 8)` calls in all. -/
theorem write_issues_ceil_units (hal : Nat → HAL_StatusTypeDef) (status : HAL_StatusTypeDef)
    (fuel : Nat) (s : Flash) (Address : Nat) (Data : List Nat) (DataLength : Nat)
    (hL : DataLength < 2 ^ 32) (hD : DataLength ≤ Data.length) (hf : DataLength / 8 < fuel) :
    (OPENBL_FLASH_Write hal status fuel s Address Data DataLength).map
        (fun r => programCalls r.2.trace) =
      some (programCalls s.trace
        ++ ((List.range (DataLength / 8)).map
              (fun i => ((Address + 8 * i) % 2 ^ 32, (Data.drop (8 * i)).take 8))
            ++ (if DataLength % 8 = 0 then []
                else [((Address + 8 * (DataLength / 8)) % 2 ^ 32,
                  (Data.drop (DataLength - DataLength % 8)).take (DataLength % 8)
                    ++ List.replicate (8 - DataLength % 8) 0xFF)])))
    ∧ (OPENBL_FLASH_Write hal status fuel s Address Data DataLength).map
        (fun r => (programCalls r.2.trace).length) =
      some ((programCalls s.trace).length + (DataLength + 7) / 8) := by
  rw [write_spec hal status fuel s Address Data DataLength hL hf]
  simp only [Option.map_some', programCalls_append, write_programCalls hal Address Data
    DataLength hD, true_and, Option.some.injEq]
  by_cases hr : DataLength % 8 = 0
  · simp [hr]; omega
  · simp [hr]; omega

/-- Witness of C1, the scenario of the specification: `write(0x1000, [0xAA]*10, 10)`
programs eight `0xAA` at `0x1000` and `[0xAA, 0xAA, 0xFF, 0xFF, 0xFF, 0xFF, 0xFF, 0xFF]`
at `0x1008`. -/
theorem write_issues_ceil_units_witness :
    (10 < 2 ^ 32 ∧ 10 ≤ (List.replicate 10 0xAA).length ∧ 10 / 8 < 2)
    ∧ (OPENBL_FLASH_Write (fun _ => HAL_StatusTypeDef.HAL_OK) HAL_StatusTypeDef.HAL_OK 2
        Flash.reset 0x1000 (List.replicate 10 0xAA) 10).map (fun r => programCalls r.2.trace) =
      some [(0x1000, [0xAA, 0xAA, 0xAA, 0xAA, 0xAA, 0xAA, 0xAA, 0xAA]),
        (0x1008, [0xAA, 0xAA, 0xFF, 0xFF, 0xFF, 0xFF, 0xFF, 0xFF])] :=
  ⟨by decide,
    (write_issues_ceil_units (fun _ => HAL_StatusTypeDef.HAL_OK) HAL_StatusTypeDef.HAL_OK 2
      Flash.reset 0x1000 (List.replicate 10 0xAA) 10 (by decide) (by decide) (by decide)).1.trans
      (by decide)⟩

/-- C2: `write(0x1000, [0xAA]*10, 10)` from the reset state issues unlock, then
(inside `EraseFlash`) unlock, clear flags and lock, then the two unit programs,
then lock: a lock operation stands between the initial unlock and the program
calls, and replaying the log shows that not every program call is made with the
control register unlocked. -/
theorem write_relocks_before_programming :
    (OPENBL_FLASH_Write (fun _ => HAL_StatusTypeDef.HAL_OK) HAL_StatusTypeDef.HAL_OK 2
        Flash.reset 0x1000 (List.replicate 10 0xAA) 10).map (fun r => r.2.trace) =
      some [Event.HAL_FLASH_Unlock, Event.HAL_FLASH_Unlock, Event.CLEAR_FLAG_ALL_ERRORS,
        Event.HAL_FLASH_Lock,
        Event.HAL_FLASH_Program 0x1000 [0xAA, 0xAA, 0xAA, 0xAA, 0xAA, 0xAA, 0xAA, 0xAA]
          HAL_StatusTypeDef.HAL_OK,
        Event.HAL_FLASH_Program 0x1008 [0xAA, 0xAA, 0xFF, 0xFF, 0xFF, 0xFF, 0xFF, 0xFF]
          HAL_StatusTypeDef.HAL_OK,
        Event.HAL_FLASH_Lock]
    ∧ (OPENBL_FLASH_Write (fun _ => HAL_StatusTypeDef.HAL_OK) HAL_StatusTypeDef.HAL_OK 2
        Flash.reset 0x1000 (List.replicate 10 0xAA) 10).map
          (fun r => programsUnlocked Flash.reset.locked r.2.trace) = some false := by
  decide

/-- Counterexample to C3: started with the controller locked,
`OPENBL_FLASH_SetReadOutProtectionLevel(0x55)` returns with the control register and
the option-byte registers unlocked. -/
theorem set_rdp_level_leaves_unlocked :
    Flash.reset.locked = true
    ∧ (OPENBL_FLASH_SetReadOutProtectionLevel stm32f7 Flash.reset 0x55).2.locked = false
    ∧ (OPENBL_FLASH_SetReadOutProtectionLevel stm32f7 Flash.reset 0x55).2.obLocked = false := by
  decide

theorem lockOps_append (a b : List Event) : lockOps (a ++ b) = lockOps a ++ lockOps b := by
  induction a with
  | nil => rfl
  | cons e es ih => cases e <;> simp [lockOps, ih]

theorem lockOps_progEvents (hal : Nat → HAL_StatusTypeDef) (Address : Nat)
    (Data : List Nat) (k m : Nat) : lockOps (progEvents hal Address Data k m) = [] := by
  unfold progEvents
  induction (List.range' k m) with
  | nil => rfl
  | cons i is ih => simpa [lockOps] using ih

theorem lockOps_writeTrace (hal : Nat → HAL_StatusTypeDef) (Address : Nat)
    (Data : List Nat) (DataLength : Nat) :
    lockOps (writeTrace hal Address Data DataLength) =
      [Event.HAL_FLASH_Unlock, Event.HAL_FLASH_Unlock, Event.HAL_FLASH_Lock,
        Event.HAL_FLASH_Lock] := by
  unfold writeTrace
  by_cases hr : DataLength % 8 = 0
  · rw [if_pos hr, lockOps_append, lockOps_append, lockOps_append, lockOps_progEvents]
    rfl
  · rw [if_neg hr, lockOps_append, lockOps_append, lockOps_append, lockOps_progEvents]
    rfl

theorem lockOpsSince_append (s r : Flash) (es : List Event) (h : r.trace = s.trace ++ es) :
    lockOpsSince s r = lockOps es := by
  unfold lockOpsSince
  rw [h, List.drop_left]

/-- C3, amended: started with the controller locked, `OPENBL_FLASH_Write`,
`OPENBL_FLASH_MassErase` and `OPENBL_FLASH_Erase` release it within the same call, for
every argument and on every exit path: each returns with the control register locked
and the option-byte lock as it found it; the first lock operation `OPENBL_FLASH_Write`
issues is an unlock and the last a lock, and `OPENBL_FLASH_MassErase` and
`OPENBL_FLASH_Erase` issue exactly an unlock and then a lock.
`OPENBL_FLASH_SetReadOutProtectionLevel(OB_RDP_LEVEL2)` issues no lock operation and
returns with both locks as it found them, the control register locked. With any other
level it issues an unlock of the control register and an unlock of the option-byte
registers and no lock, and returns with both unlocked. -/
theorem controller_lock_on_return (c : Config) (hal : Nat → HAL_StatusTypeDef)
    (status : HAL_StatusTypeDef) (fuel : Nat) (s : Flash) (Address : Nat)
    (Data p_Data : List Nat) (DataLength Level : Nat)
    (hs : s.locked = true) (hL : DataLength < 2 ^ 32) (hf : DataLength / 8 < fuel) :
    (OPENBL_FLASH_Write hal status fuel s Address Data DataLength).map
        (fun r => (r.2.locked, r.2.obLocked, (lockOpsSince s r.2).head?,
          (lockOpsSince s r.2).getLast?)) =
      some (true, s.obLocked, some Event.HAL_FLASH_Unlock, some Event.HAL_FLASH_Lock)
    ∧ ((OPENBL_FLASH_MassErase c s p_Data DataLength).2.locked = true
      ∧ (OPENBL_FLASH_MassErase c s p_Data DataLength).2.obLocked = s.obLocked
      ∧ lockOpsSince s (OPENBL_FLASH_MassErase c s p_Data DataLength).2 =
          [Event.HAL_FLASH_Unlock, Event.HAL_FLASH_Lock])
    ∧ ((OPENBL_FLASH_Erase status s Address p_Data DataLength).2.locked = true
      ∧ (OPENBL_FLASH_Erase status s Address p_Data DataLength).2.obLocked = s.obLocked
      ∧ lockOpsSince s (OPENBL_FLASH_Erase status s Address p_Data DataLength).2 =
          [Event.HAL_FLASH_Unlock, Event.HAL_FLASH_Lock])
    ∧ ((OPENBL_FLASH_SetReadOutProtectionLevel c s c.OB_RDP_LEVEL2).2.locked = true
      ∧ (OPENBL_FLASH_SetReadOutProtectionLevel c s c.OB_RDP_LEVEL2).2.obLocked = s.obLocked
      ∧ lockOpsSince s (OPENBL_FLASH_SetReadOutProtectionLevel c s c.OB_RDP_LEVEL2).2 = [])
    ∧ (Level ≠ c.OB_RDP_LEVEL2 →
        (OPENBL_FLASH_SetReadOutProtectionLevel c s Level).2.locked = false
        ∧ (OPENBL_FLASH_SetReadOutProtectionLevel c s Level).2.obLocked = false
        ∧ lockOpsSince s (OPENBL_FLASH_SetReadOutProtectionLevel c s Level).2 =
            [Event.HAL_FLASH_Unlock, Event.HAL_FLASH_OB_Unlock]) := by
  refine ⟨?_, ?_, ?_, ?_, ?_⟩
  · rw [write_spec hal status fuel s Address Data DataLength hL hf]
    simp only [Option.map_some']
    rw [lockOpsSince_append s _ (writeTrace hal Address Data DataLength) rfl,
      lockOps_writeTrace]
    rfl
  · have ht : ∃ es, (OPENBL_FLASH_MassErase c s p_Data DataLength).2.trace = s.trace ++ es
        ∧ lockOps es = [Event.HAL_FLASH_Unlock, Event.HAL_FLASH_Lock]
        ∧ (OPENBL_FLASH_MassErase c s p_Data DataLength).2.obLocked = s.obLocked := by
      unfold OPENBL_FLASH_MassErase
      by_cases h2 : DataLength ≥ 2
      · simp only [h2, if_true]
        split
        · exact ⟨[Event.HAL_FLASH_Unlock, Event.HAL_FLASH_Lock],
            by simp [OPENBL_FLASH_Lock, HAL_FLASH_Lock, OPENBL_FLASH_Unlock, HAL_FLASH_Unlock],
            rfl, rfl⟩
        · rename_i b _
          exact ⟨[Event.HAL_FLASH_Unlock, Event.OPENBL_FLASH_ExtendedErase b,
              Event.HAL_FLASH_Lock],
            by simp [OPENBL_FLASH_Lock, HAL_FLASH_Lock, OPENBL_FLASH_Unlock, HAL_FLASH_Unlock,
              OPENBL_FLASH_ExtendedErase, Flash.log],
            rfl, rfl⟩
      · simp only [h2, if_false]
        exact ⟨[Event.HAL_FLASH_Unlock, Event.HAL_FLASH_Lock],
          by simp [OPENBL_FLASH_Lock, HAL_FLASH_Lock, OPENBL_FLASH_Unlock, HAL_FLASH_Unlock],
          rfl, rfl⟩
    obtain ⟨es, h1, h2, h3⟩ := ht
    refine ⟨?_, h3, ?_⟩
    · simp [OPENBL_FLASH_MassErase, OPENBL_FLASH_Lock, HAL_FLASH_Lock]
    · rw [lockOpsSince_append s _ es h1, h2]
  · have ht : (OPENBL_FLASH_Erase status s Address p_Data DataLength).2 =
        HAL_FLASH_Lock (HAL_FLASH_CLEAR_FLAG (OPENBL_FLASH_Unlock s)) := by
      unfold OPENBL_FLASH_Erase
      split <;> rfl
    rw [ht]
    refine ⟨rfl, rfl, ?_⟩
    rw [lockOpsSince_append s _
      [Event.HAL_FLASH_Unlock, Event.CLEAR_FLAG_ALL_ERRORS, Event.HAL_FLASH_Lock]
      (by simp [HAL_FLASH_Lock, HAL_FLASH_CLEAR_FLAG, OPENBL_FLASH_Unlock, HAL_FLASH_Unlock,
        Flash.log])]
    rfl
  · have ht : (OPENBL_FLASH_SetReadOutProtectionLevel c s c.OB_RDP_LEVEL2).2 =
        Common_SetPostProcessingCallback s Callback.OPENBL_OB_Launch := by
      simp [OPENBL_FLASH_SetReadOutProtectionLevel]
    rw [ht]
    refine ⟨hs, rfl, ?_⟩
    rw [lockOpsSince_append s _
      [Event.Common_SetPostProcessingCallback Callback.OPENBL_OB_Launch] rfl]
    rfl
  · intro hne
    have ht : (OPENBL_FLASH_SetReadOutProtectionLevel c s Level).2 =
        Common_SetPostProcessingCallback
          (HAL_FLASHEx_OBProgram c (OPENBL_FLASH_OB_Unlock s)
            { OptionType := c.OPTIONBYTE_RDP, RDPLevel := Level })
          Callback.OPENBL_OB_Launch := by
      simp [OPENBL_FLASH_SetReadOutProtectionLevel, hne]
    rw [ht]
    refine ⟨rfl, rfl, ?_⟩
    rw [lockOpsSince_append s _
      [Event.HAL_FLASH_Unlock, Event.HAL_FLASH_OB_Unlock,
        Event.HAL_FLASHEx_OBProgram c.OPTIONBYTE_RDP Level,
        Event.Common_SetPostProcessingCallback Callback.OPENBL_OB_Launch]
      (by simp [Common_SetPostProcessingCallback, HAL_FLASHEx_OBProgram,
        OPENBL_FLASH_OB_Unlock, HAL_FLASH_OB_Unlock, HAL_FLASH_Unlock])]
    rfl

/-- Witness of the amended C3 at the reset state: a 10-byte write whose program calls
all fail, a mass erase of the whole device, and the levels `0xCC` and `0x55`. -/
theorem controller_lock_on_return_witness :
    (Flash.reset.locked = true ∧ 10 < 2 ^ 32 ∧ 10 / 8 < 2 ∧ 0x55 ≠ stm32f7.OB_RDP_LEVEL2)
    ∧ (OPENBL_FLASH_Write (fun _ => HAL_StatusTypeDef.HAL_ERROR) HAL_StatusTypeDef.HAL_ERROR 2
        Flash.reset 0x1000 (List.replicate 10 0xAA) 10).map
          (fun r => (r.2.locked, r.2.obLocked, (lockOpsSince Flash.reset r.2).head?,
            (lockOpsSince Flash.reset r.2).getLast?)) =
        some (true, true, some Event.HAL_FLASH_Unlock, some Event.HAL_FLASH_Lock)
    ∧ lockOpsSince Flash.reset (OPENBL_FLASH_MassErase stm32f7 Flash.reset [0xFF, 0xFF] 10).2 =
        [Event.HAL_FLASH_Unlock, Event.HAL_FLASH_Lock]
    ∧ lockOpsSince Flash.reset
        (OPENBL_FLASH_SetReadOutProtectionLevel stm32f7 Flash.reset stm32f7.OB_RDP_LEVEL2).2 = []
    ∧ lockOpsSince Flash.reset
        (OPENBL_FLASH_SetReadOutProtectionLevel stm32f7 Flash.reset 0x55).2 =
        [Event.HAL_FLASH_Unlock, Event.HAL_FLASH_OB_Unlock] :=
  have h := controller_lock_on_return stm32f7 (fun _ => HAL_StatusTypeDef.HAL_ERROR)
    HAL_StatusTypeDef.HAL_ERROR 2 Flash.reset 0x1000 (List.replicate 10 0xAA) [0xFF, 0xFF] 10
    0x55 (by decide) (by decide) (by decide)
  ⟨by decide, h.1, h.2.1.2.2, h.2.2.2.1.2.2, (h.2.2.2.2 (by decide)).2.2⟩

/-- C4: `write(0x1000, [0xAA]*10, 10)` from the reset state makes its two unit-program
calls while its log contains no erase call at all. -/
theorem write_erases_nothing :
    (OPENBL_FLASH_Write (fun _ => HAL_StatusTypeDef.HAL_OK) HAL_StatusTypeDef.HAL_OK 2
        Flash.reset 0x1000 (List.replicate 10 0xAA) 10).map
          (fun r => (hasErase r.2.trace, (programCalls r.2.trace).length)) =
      some (false, 2) := by
  decide

/-- C5: `OPENBL_FLASH_SetReadOutProtectionLevel(OB_RDP_LEVEL2)` does nothing but
register `OPENBL_OB_Launch` as post-processing callback: no unlock and no option-byte
program is logged and the staged level and both locks are unchanged. For every other
`Level` it unlocks, programs the option bytes with option type RDP and that level, so
that the staged level is `Level`, and registers the same callback. -/
theorem set_rdp_level_stages_or_skips (c : Config) (s : Flash) (Level : Nat) :
    (OPENBL_FLASH_SetReadOutProtectionLevel c s c.OB_RDP_LEVEL2).2 =
        Common_SetPostProcessingCallback s Callback.OPENBL_OB_Launch
    ∧ (OPENBL_FLASH_SetReadOutProtectionLevel c s c.OB_RDP_LEVEL2).2.trace =
        s.trace ++ [Event.Common_SetPostProcessingCallback Callback.OPENBL_OB_Launch]
    ∧ (OPENBL_FLASH_SetReadOutProtectionLevel c s c.OB_RDP_LEVEL2).2.RDPLevel = s.RDPLevel
    ∧ (OPENBL_FLASH_SetReadOutProtectionLevel c s c.OB_RDP_LEVEL2).2.obLocked = s.obLocked
    ∧ (OPENBL_FLASH_SetReadOutProtectionLevel c s c.OB_RDP_LEVEL2).2.locked = s.locked
    ∧ (Level ≠ c.OB_RDP_LEVEL2 →
        (OPENBL_FLASH_SetReadOutProtectionLevel c s Level).2.RDPLevel = Level
        ∧ (OPENBL_FLASH_SetReadOutProtectionLevel c s Level).2.callback =
            some Callback.OPENBL_OB_Launch
        ∧ (OPENBL_FLASH_SetReadOutProtectionLevel c s Level).2.trace =
            s.trace ++ [Event.HAL_FLASH_Unlock, Event.HAL_FLASH_OB_Unlock,
              Event.HAL_FLASHEx_OBProgram c.OPTIONBYTE_RDP Level,
              Event.Common_SetPostProcessingCallback Callback.OPENBL_OB_Launch]) := by
  refine ⟨?_, ?_, ?_, ?_, ?_, ?_⟩
  · simp [OPENBL_FLASH_SetReadOutProtectionLevel]
  · simp [OPENBL_FLASH_SetReadOutProtectionLevel, Common_SetPostProcessingCallback]
  · simp [OPENBL_FLASH_SetReadOutProtectionLevel, Common_SetPostProcessingCallback]
  · simp [OPENBL_FLASH_SetReadOutProtectionLevel, Common_SetPostProcessingCallback]
  · simp [OPENBL_FLASH_SetReadOutProtectionLevel, Common_SetPostProcessingCallback]
  · intro hne
    simp [OPENBL_FLASH_SetReadOutProtectionLevel, hne, Common_SetPostProcessingCallback,
      HAL_FLASHEx_OBProgram, OPENBL_FLASH_OB_Unlock, HAL_FLASH_OB_Unlock, HAL_FLASH_Unlock]

/-- Witness of C5: from the reset state the level `0x55` is staged, the level
`OB_RDP_LEVEL2 = 0xCC` is not. -/
theorem set_rdp_level_stages_or_skips_witness :
    0x55 ≠ stm32f7.OB_RDP_LEVEL2
    ∧ (OPENBL_FLASH_SetReadOutProtectionLevel stm32f7 Flash.reset 0xCC).2.RDPLevel = 0xAA
    ∧ (OPENBL_FLASH_SetReadOutProtectionLevel stm32f7 Flash.reset 0x55).2.RDPLevel = 0x55 :=
  have h := set_rdp_level_stages_or_skips stm32f7 Flash.reset 0x55
  ⟨by decide, h.2.2.1, (h.2.2.2.2.2 (by decide)).1⟩

/-- C6: with `DataLength < 2`, `OPENBL_FLASH_MassErase` returns `ERROR` whatever the
payload holds, and all it adds to the log is the unlock and the lock: no erase call. -/
theorem mass_erase_short_payload (c : Config) (s : Flash) (p_Data : List Nat)
    (DataLength : Nat) (h : DataLength < 2) :
    (OPENBL_FLASH_MassErase c s p_Data DataLength).1 = ErrorStatus.ERROR
    ∧ (OPENBL_FLASH_MassErase c s p_Data DataLength).2.trace =
        s.trace ++ [Event.HAL_FLASH_Unlock, Event.HAL_FLASH_Lock]
    ∧ hasErase (OPENBL_FLASH_MassErase c s p_Data DataLength).2.trace = hasErase s.trace := by
  have h2 : ¬ DataLength ≥ 2 := by omega
  have ht : (OPENBL_FLASH_MassErase c s p_Data DataLength).2.trace =
      s.trace ++ [Event.HAL_FLASH_Unlock, Event.HAL_FLASH_Lock] := by
    simp [OPENBL_FLASH_MassErase, h2, OPENBL_FLASH_Lock, HAL_FLASH_Lock, OPENBL_FLASH_Unlock,
      HAL_FLASH_Unlock]
  refine ⟨?_, ht, ?_⟩
  · simp [OPENBL_FLASH_MassErase, h2]
  · rw [ht, hasErase_append]
    simp [hasErase]

/-- Witness of C6: a 1-byte payload holding a byte of the whole-device selector. -/
theorem mass_erase_short_payload_witness :
    1 < 2
    ∧ (OPENBL_FLASH_MassErase stm32f7 Flash.reset [0xFF] 1).1 = ErrorStatus.ERROR
    ∧ (OPENBL_FLASH_MassErase stm32f7 Flash.reset [0xFF] 1).2.trace =
        [Event.HAL_FLASH_Unlock, Event.HAL_FLASH_Lock] :=
  have h := mass_erase_short_payload stm32f7 Flash.reset [0xFF] 1 (by decide)
  ⟨by decide, h.1, h.2.1⟩

/-- C7: `OPENBL_FLASH_JumpToAddress` adds to the log exactly, in this order, the
de-initialisation, the interrupt enable, the setting of the main stack pointer to the
word stored at `Address`, and the call of the function whose address is the word
stored at `Address + 4` (as a 32-bit address). -/
theorem jump_sets_stack_before_entry (mem : Nat → Nat) (s : Flash) (Address : Nat) :
    (OPENBL_FLASH_JumpToAddress mem s Address).trace =
      s.trace ++ [Event.OPENBL_DeInit, Event.Common_EnableIrq,
        Event.Common_SetMsp (mem Address),
        Event.jump_to_address (mem ((Address + 4) % 2 ^ 32))] := by
  simp [OPENBL_FLASH_JumpToAddress, OPENBL_DeInit, Common_EnableIrq, Common_SetMsp, Flash.log]

/-- Counterexample to C8: in `write(0x1000, [0xAA]*10, 10)` every unit-program call
reports `HAL_ERROR`, yet what the caller gets back is what it gets back when every
call reports `HAL_OK`. -/
theorem write_hides_program_failure :
    (OPENBL_FLASH_Write (fun _ => HAL_StatusTypeDef.HAL_ERROR) HAL_StatusTypeDef.HAL_OK 2
        Flash.reset 0x1000 (List.replicate 10 0xAA) 10).map (fun r => r.2.trace) =
      some [Event.HAL_FLASH_Unlock, Event.HAL_FLASH_Unlock, Event.CLEAR_FLAG_ALL_ERRORS,
        Event.HAL_FLASH_Lock,
        Event.HAL_FLASH_Program 0x1000 [0xAA, 0xAA, 0xAA, 0xAA, 0xAA, 0xAA, 0xAA, 0xAA]
          HAL_StatusTypeDef.HAL_ERROR,
        Event.HAL_FLASH_Program 0x1008 [0xAA, 0xAA, 0xFF, 0xFF, 0xFF, 0xFF, 0xFF, 0xFF]
          HAL_StatusTypeDef.HAL_ERROR,
        Event.HAL_FLASH_Lock]
    ∧ (OPENBL_FLASH_Write (fun _ => HAL_StatusTypeDef.HAL_ERROR) HAL_StatusTypeDef.HAL_OK 2
        Flash.reset 0x1000 (List.replicate 10 0xAA) 10).map (fun r => r.1) =
      (OPENBL_FLASH_Write (fun _ => HAL_StatusTypeDef.HAL_OK) HAL_StatusTypeDef.HAL_OK 2
        Flash.reset 0x1000 (List.replicate 10 0xAA) 10).map (fun r => r.1) := by
  decide

/-- C8, amended: whatever statuses the unit-program calls report, `OPENBL_FLASH_Write`
returns, hands `()` back to its caller, issues the same operations as a run in which
every call succeeds (all units are still programmed, nothing is rolled back), ends
with the lock operation and leaves the controller locked. -/
theorem write_ignores_program_status (hal : Nat → HAL_StatusTypeDef)
    (status : HAL_StatusTypeDef) (fuel : Nat) (s : Flash) (Address : Nat) (Data : List Nat)
    (DataLength : Nat) (hL : DataLength < 2 ^ 32) (hf : DataLength / 8 < fuel) :
    (OPENBL_FLASH_Write hal status fuel s Address Data DataLength).map (fun r => r.1) = some ()
    ∧ (OPENBL_FLASH_Write hal status fuel s Address Data DataLength).map
        (fun r => (r.1, issued r.2.trace)) =
      (OPENBL_FLASH_Write (fun _ => HAL_StatusTypeDef.HAL_OK) status fuel s Address Data
        DataLength).map (fun r => (r.1, issued r.2.trace))
    ∧ (OPENBL_FLASH_Write hal status fuel s Address Data DataLength).map
        (fun r => r.2.trace.getLast?) = some (some Event.HAL_FLASH_Lock)
    ∧ (OPENBL_FLASH_Write hal status fuel s Address Data DataLength).map
        (fun r => r.2.locked) = some true := by
  rw [write_spec hal status fuel s Address Data DataLength hL hf,
    write_spec (fun _ => HAL_StatusTypeDef.HAL_OK) status fuel s Address Data DataLength hL hf]
  refine ⟨rfl, ?_, ?_, rfl⟩
  · simp only [Option.map_some', issued_append, issued_writeTrace]
  · simp only [Option.map_some', writeTrace, ← List.append_assoc, List.getLast?_concat]

/-- Witness of the amended C8 at `write(0x1000, [0xAA]*10, 10)` with every program call
failing. -/
theorem write_ignores_program_status_witness :
    (10 < 2 ^ 32 ∧ 10 / 8 < 2)
    ∧ (OPENBL_FLASH_Write (fun _ => HAL_StatusTypeDef.HAL_ERROR) HAL_StatusTypeDef.HAL_OK 2
        Flash.reset 0x1000 (List.replicate 10 0xAA) 10).map (fun r => r.1) = some () :=
  ⟨by decide,
    (write_ignores_program_status (fun _ => HAL_StatusTypeDef.HAL_ERROR)
      HAL_StatusTypeDef.HAL_OK 2 Flash.reset 0x1000 (List.replicate 10 0xAA) 10 (by decide)
      (by decide)).1⟩

/-- C9: `OPENBL_FLASH_Erase` asked for `0x100` bytes at `0x08040000`, and asked for
`0x40000` bytes at `0x08020000` (a range over two sectors), logs the same three calls,
unlock, clear flags and lock, none of them an erase; the value it returns is the
unassigned `status`. -/
theorem region_erase_erases_nothing :
    (OPENBL_FLASH_Erase HAL_StatusTypeDef.HAL_OK Flash.reset 0x08040000 [] 0x100).2.trace =
      [Event.HAL_FLASH_Unlock, Event.CLEAR_FLAG_ALL_ERRORS, Event.HAL_FLASH_Lock]
    ∧ (OPENBL_FLASH_Erase HAL_StatusTypeDef.HAL_OK Flash.reset 0x08020000 [] 0x40000).2.trace =
      [Event.HAL_FLASH_Unlock, Event.CLEAR_FLAG_ALL_ERRORS, Event.HAL_FLASH_Lock]
    ∧ hasErase (OPENBL_FLASH_Erase HAL_StatusTypeDef.HAL_OK Flash.reset 0x08040000 []
        0x100).2.trace = false
    ∧ (OPENBL_FLASH_Erase HAL_StatusTypeDef.HAL_OK Flash.reset 0x08040000 [] 0x100).1 =
      ErrorStatus.SUCCESS
    ∧ (OPENBL_FLASH_Erase HAL_StatusTypeDef.HAL_ERROR Flash.reset 0x08040000 [] 0x100).1 =
      ErrorStatus.ERROR := by
  decide

/-- C10: `OPENBL_FLASH_SetWriteProtection(ENABLE, [5, 6], 2)` from the reset state
returns `SUCCESS` with an empty staged write-protection set, so region 5 is not in
it; `OPENBL_FLASH_SetWriteProtection(DISABLE, [], 0)` from a state with region 3
staged returns `SUCCESS` with region 3 still staged. -/
theorem write_protection_is_not_staged :
    (OPENBL_FLASH_SetWriteProtection Flash.reset ENABLE [5, 6] 2).1 = ErrorStatus.SUCCESS
    ∧ (OPENBL_FLASH_SetWriteProtection Flash.reset ENABLE [5, 6] 2).2.wrp = []
    ∧ 5 ∉ (OPENBL_FLASH_SetWriteProtection Flash.reset ENABLE [5, 6] 2).2.wrp
    ∧ (OPENBL_FLASH_SetWriteProtection { Flash.reset with wrp := [3] } DISABLE [] 0).1 =
      ErrorStatus.SUCCESS
    ∧ (OPENBL_FLASH_SetWriteProtection { Flash.reset with wrp := [3] } DISABLE [] 0).2.wrp =
      [3] := by
  decide

/-! ## Reads of the data buffer -/

theorem copyRemainderReads_fold (Data : List Nat) (length : Nat) (l : List Nat) :
    ∀ (rd reads : List Nat),
      l.foldl (fun (acc : List Nat × List Nat) index =>
          (acc.1.set index (Data.getD (length + index) 0), acc.2 ++ [length + index]))
        (rd, reads) =
      (l.foldl (fun rd index => rd.set index (Data.getD (length + index) 0)) rd,
        reads ++ l.map (fun index => length + index)) := by
  induction l with
  | nil => intro rd reads; simp
  | cons i is ih =>
    intro rd reads
    simp only [List.foldl_cons, List.map_cons]
    rw [ih]
    simp

theorem copyRemainderReads_eq (Data : List Nat) (length remainder : Nat) (rd : List Nat) :
    copyRemainderReads Data length remainder rd =
      (copyRemainder Data length remainder rd,
        (List.range remainder).map (fun index => length + index)) := by
  unfold copyRemainderReads copyRemainder
  rw [copyRemainderReads_fold]
  simp

theorem programLoopReads_fst (hal : Nat → HAL_StatusTypeDef) (Address : Nat) (Data : List Nat)
    (length : Nat) :
    ∀ (fuel index : Nat) (s : Flash) (reads : List Nat),
      (programLoopReads hal Address Data length fuel index s reads).map (fun r => r.1) =
        programLoop hal Address Data length fuel index s := by
  intro fuel
  induction fuel with
  | zero => intro index s reads; rfl
  | succ fuel ih =>
    intro index s reads
    unfold programLoopReads programLoop
    by_cases h : index < length
    · rw [if_pos h, if_pos h, ih]
    · rw [if_neg h, if_neg h]; rfl

theorem programLoopReads_spec (hal : Nat → HAL_StatusTypeDef) (Address : Nat) (Data : List Nat)
    (n : Nat) (hn : n < 2 ^ 29) :
    ∀ (fuel k : Nat) (s : Flash) (reads : List Nat), k ≤ n → n - k < fuel →
      (programLoopReads hal Address Data (8 * n) fuel (8 * k) s reads).map (fun r => r.2) =
        some (reads ++ (List.range' k (n - k)).flatMap (fun i => unitOffsets (8 * i))) := by
  intro fuel
  induction fuel with
  | zero => intro k s reads _ h; omega
  | succ fuel ih =>
    intro k s reads hk hf
    unfold programLoopReads
    by_cases hlt : k < n
    · have h1 : 8 * k < 8 * n := by omega
      have h2 : (8 * k + 8) % 2 ^ 32 = 8 * (k + 1) := by
        rw [Nat.mod_eq_of_lt] <;> omega
      rw [if_pos h1, h2, ih (k + 1) _ _ (by omega) (by omega)]
      have h3 : n - k = (n - (k + 1)) + 1 := by omega
      rw [h3, List.range'_succ]
      simp
    · have h1 : ¬ 8 * k < 8 * n := by omega
      have h3 : n - k = 0 := by omega
      rw [if_neg h1, h3]
      simp

theorem write_reads_fst (hal : Nat → HAL_StatusTypeDef) (status : HAL_StatusTypeDef)
    (fuel : Nat) (s : Flash) (Address : Nat) (Data : List Nat) (DataLength : Nat) :
    (OPENBL_FLASH_Write_reads hal status fuel s Address Data DataLength).map (fun r => r.1) =
      OPENBL_FLASH_Write hal status fuel s Address Data DataLength := by
  unfold OPENBL_FLASH_Write_reads OPENBL_FLASH_Write
  simp only [copyRemainderReads_eq]
  generalize hS : (EraseFlash status (OPENBL_FLASH_Unlock s) Address DataLength).2 = s0
  by_cases hr : DataLength &&& 0x7 = 0
  · simp only [hr, ne_eq, not_true_eq_false, if_false]
    have key := programLoopReads_fst hal Address Data DataLength fuel 0 s0 []
    cases hx : programLoopReads hal Address Data DataLength fuel 0 s0 [] with
    | none => rw [hx] at key; rw [← key]; rfl
    | some r => rw [hx] at key; rw [← key]; rfl
  · simp only [hr, ne_eq, not_false_eq_true, if_true]
    have key := programLoopReads_fst hal Address Data (DataLength &&& 0xFFFFFFF8) fuel 0 s0
      ((List.range (DataLength &&& 0x7)).map (fun index => (DataLength &&& 0xFFFFFFF8) + index))
    cases hx : programLoopReads hal Address Data (DataLength &&& 0xFFFFFFF8) fuel 0 s0
        ((List.range (DataLength &&& 0x7)).map
          (fun index => (DataLength &&& 0xFFFFFFF8) + index)) with
    | none => rw [hx] at key; rw [← key]; rfl
    | some r => rw [hx] at key; rw [← key]; rfl

theorem write_reads_snd (hal : Nat → HAL_StatusTypeDef) (status : HAL_StatusTypeDef)
    (fuel : Nat) (s : Flash) (Address : Nat) (Data : List Nat) (DataLength : Nat)
    (hL : DataLength < 2 ^ 32) (hf : DataLength / 8 < fuel) :
    (OPENBL_FLASH_Write_reads hal status fuel s Address Data DataLength).map (fun r => r.2) =
      some ((List.range (DataLength % 8)).map (fun j => (DataLength - DataLength % 8) + j)
        ++ (List.range (DataLength / 8)).flatMap (fun i => unitOffsets (8 * i))) := by
  have e : DataLength - DataLength % 8 = 8 * (DataLength / 8) := by omega
  have hloop : ∀ (s0 : Flash) (reads : List Nat),
      (programLoopReads hal Address Data (DataLength - DataLength % 8) fuel 0 s0 reads).map
          (fun r => r.2) =
        some (reads ++ (List.range (DataLength / 8)).flatMap (fun i => unitOffsets (8 * i))) := by
    intro s0 reads
    have := programLoopReads_spec hal Address Data (DataLength / 8) (by omega) fuel 0 s0 reads
      (Nat.zero_le _) (by omega)
    rw [e, List.range_eq_range']
    simpa using this
  unfold OPENBL_FLASH_Write_reads
  simp only [copyRemainderReads_eq, land_seven, land_mask DataLength hL]
  generalize (EraseFlash status (OPENBL_FLASH_Unlock s) Address DataLength).2 = s0
  by_cases hr : DataLength % 8 = 0
  · have e0 : DataLength - DataLength % 8 = DataLength := by omega
    have key := hloop s0 []
    rw [e0] at key
    simp only [hr, ne_eq, not_true_eq_false, if_false]
    cases hx : programLoopReads hal Address Data DataLength fuel 0 s0 [] with
    | none => rw [hx] at key; simp at key
    | some r =>
      rw [hx] at key
      simp only [Option.map_some', Option.some.injEq] at key
      simp [key, e0]
  · have key := hloop s0
      ((List.range (DataLength % 8)).map (fun index => (DataLength - DataLength % 8) + index))
    simp only [hr, ne_eq, not_false_eq_true, if_true]
    cases hx : programLoopReads hal Address Data (DataLength - DataLength % 8) fuel 0 s0
        ((List.range (DataLength % 8)).map
          (fun index => (DataLength - DataLength % 8) + index)) with
    | none => rw [hx] at key; simp at key
    | some r =>
      rw [hx] at key
      simp only [Option.map_some', Option.some.injEq] at key
      simp [key]

/-! ## Registration of the deferred commit -/

theorem setWriteProtection_status (s : Flash) (State Length : Nat) (ListOfPages : List Nat) :
    (OPENBL_FLASH_SetWriteProtection s State ListOfPages Length).1 = ErrorStatus.SUCCESS
      ↔ (State = ENABLE ∨ State = DISABLE) := by
  unfold OPENBL_FLASH_SetWriteProtection
  by_cases hE : State = ENABLE
  · simp [hE]
  · by_cases hD : State = DISABLE
    · subst hD
      simp [DISABLE, ENABLE]
    · simp [hE, hD]

theorem run_registers (c : Config) (s : Flash) (x : ProtectionCall)
    (h : x.succeeds s = true) :
    (x.run c s).callback = some Callback.OPENBL_OB_Launch := by
  cases x with
  | SetWriteProtection State ListOfPages Length =>
    simp only [ProtectionCall.succeeds, decide_eq_true_eq] at h
    simp only [ProtectionCall.run]
    unfold OPENBL_FLASH_SetWriteProtection at h ⊢
    split
    · rfl
    · split
      · rfl
      · rename_i h1 h2
        simp [h1, h2] at h
  | SetReadOutProtectionLevel Level => rfl

theorem runCalls_registers (c : Config) :
    ∀ (xs : List ProtectionCall) (x : ProtectionCall) (s : Flash),
      allSucceed c s (x :: xs) = true →
        (runCalls c s (x :: xs)).callback = some Callback.OPENBL_OB_Launch := by
  intro xs
  induction xs with
  | nil =>
    intro x s h
    simp only [allSucceed, Bool.and_true] at h
    exact run_registers c s x h
  | cons y ys ih =>
    intro x s h
    simp only [allSucceed, Bool.and_eq_true] at h
    have h2 : allSucceed c (x.run c s) (y :: ys) = true := by
      simp only [allSucceed, Bool.and_eq_true]
      exact h.2
    exact ih y (x.run c s) h2

/-- C11: `OPENBL_FLASH_SetWriteProtection` returns `SUCCESS` exactly for the states
`ENABLE` and `DISABLE`. After a successful call of it, and after any call of
`OPENBL_FLASH_SetReadOutProtectionLevel`, the registration slot holds the option-byte
launch routine, once. After a sequence of one, two or more such calls, each successful,
the slot is what it is after the first call alone. -/
theorem deferred_commit_registered_once (c : Config) (s : Flash) (State Length Level : Nat)
    (ListOfPages : List Nat) (x : ProtectionCall) (xs : List ProtectionCall)
    (h : allSucceed c s (x :: xs) = true) :
    ((OPENBL_FLASH_SetWriteProtection s State ListOfPages Length).1 = ErrorStatus.SUCCESS
      ↔ (State = ENABLE ∨ State = DISABLE))
    ∧ ((OPENBL_FLASH_SetWriteProtection s State ListOfPages Length).1 = ErrorStatus.SUCCESS →
        (OPENBL_FLASH_SetWriteProtection s State ListOfPages Length).2.callback.toList =
          [Callback.OPENBL_OB_Launch])
    ∧ (OPENBL_FLASH_SetReadOutProtectionLevel c s Level).2.callback.toList =
        [Callback.OPENBL_OB_Launch]
    ∧ (x.run c s).callback.toList = [Callback.OPENBL_OB_Launch]
    ∧ (runCalls c s (x :: xs)).callback = (x.run c s).callback := by
  have hx : x.succeeds s = true := by
    simp only [allSucceed, Bool.and_eq_true] at h
    exact h.1
  have h1 := run_registers c s x hx
  refine ⟨setWriteProtection_status s State Length ListOfPages, ?_, ?_, ?_, ?_⟩
  · intro hs
    have := run_registers c s (ProtectionCall.SetWriteProtection State ListOfPages Length)
      (by simpa [ProtectionCall.succeeds] using hs)
    simp only [ProtectionCall.run] at this
    rw [this]; rfl
  · rfl
  · rw [h1]; rfl
  · rw [h1, runCalls_registers c xs x s h]

/-- Witness of C11: enabling write protection, then requesting the level `0xCC`, then
disabling write protection leaves the registration that the first call alone leaves. -/
theorem deferred_commit_registered_once_witness :
    allSucceed stm32f7 Flash.reset
        [ProtectionCall.SetWriteProtection ENABLE [5] 1,
          ProtectionCall.SetReadOutProtectionLevel 0xCC,
          ProtectionCall.SetWriteProtection DISABLE [] 0] = true
    ∧ (runCalls stm32f7 Flash.reset
        [ProtectionCall.SetWriteProtection ENABLE [5] 1,
          ProtectionCall.SetReadOutProtectionLevel 0xCC,
          ProtectionCall.SetWriteProtection DISABLE [] 0]).callback =
      ((ProtectionCall.SetWriteProtection ENABLE [5] 1).run stm32f7 Flash.reset).callback :=
  ⟨by decide,
    (deferred_commit_registered_once stm32f7 Flash.reset ENABLE 1 0x55 [5]
      (ProtectionCall.SetWriteProtection ENABLE [5] 1)
      [ProtectionCall.SetReadOutProtectionLevel 0xCC,
        ProtectionCall.SetWriteProtection DISABLE [] 0] (by decide)).2.2.2.2⟩

/-! ## Reads of `OPENBL_FLASH_Write` -/

theorem unitOffsets_bound (i n : Nat) (hi : i < n / 8) : ∀ o ∈ unitOffsets (8 * i), o < n := by
  intro o ho
  simp only [unitOffsets, List.mem_map, List.mem_range] at ho
  obtain ⟨j, hj, rfl⟩ := ho
  omega

/-- C12: for a 32-bit `DataLength`, a buffer of exactly `DataLength` bytes and enough
fuel, `OPENBL_FLASH_Write` returns. The offsets at which it reads the buffer are, in
the order of the reads, `(DataLength - DataLength % 8) + j` for `j < DataLength % 8`
(the remainder copy) and then `8 * i + j`, `j < 8`, for `i < DataLength / 8` (one
program per full unit, each once and in ascending order, so the index does not wrap);
the increment of the index does not exceed 32 bits and `8 * i + 7 < DataLength`; every
offset read lies inside the buffer. The padded unit adds no read of the buffer. -/
theorem write_reads_stay_in_buffer (hal : Nat → HAL_StatusTypeDef)
    (status : HAL_StatusTypeDef) (fuel : Nat) (s : Flash) (Address : Nat) (Data : List Nat)
    (DataLength : Nat) (hL : DataLength < 2 ^ 32) (hD : Data.length = DataLength)
    (hf : DataLength / 8 < fuel) :
    (OPENBL_FLASH_Write hal status fuel s Address Data DataLength).isSome = true
    ∧ (OPENBL_FLASH_Write_reads hal status fuel s Address Data DataLength).map (fun r => r.1) =
        OPENBL_FLASH_Write hal status fuel s Address Data DataLength
    ∧ (OPENBL_FLASH_Write_reads hal status fuel s Address Data DataLength).map (fun r => r.2) =
        some ((List.range (DataLength % 8)).map (fun j => (DataLength - DataLength % 8) + j)
          ++ (List.range (DataLength / 8)).flatMap
              (fun i => (List.range 8).map (fun j => 8 * i + j)))
    ∧ (∀ i, i < DataLength / 8 → (8 * i + 8) % 2 ^ 32 = 8 * i + 8 ∧ 8 * i + 7 < DataLength)
    ∧ (OPENBL_FLASH_Write_reads hal status fuel s Address Data DataLength).map
        (fun r => r.2.all (fun o => decide (o < Data.length))) = some true := by
  have hsnd := write_reads_snd hal status fuel s Address Data DataLength hL hf
  refine ⟨?_, write_reads_fst hal status fuel s Address Data DataLength, hsnd, ?_, ?_⟩
  · rw [write_spec hal status fuel s Address Data DataLength hL hf]; rfl
  · intro i hi
    constructor
    · rw [Nat.mod_eq_of_lt]; omega
    · omega
  · cases hx : OPENBL_FLASH_Write_reads hal status fuel s Address Data DataLength with
    | none => rw [hx] at hsnd; simp at hsnd
    | some r =>
      rw [hx] at hsnd
      simp only [Option.map_some', Option.some.injEq] at hsnd ⊢
      rw [hsnd, List.all_eq_true]
      intro o ho
      rw [decide_eq_true_eq, hD]
      rcases List.mem_append.mp ho with h1 | h2
      · simp only [List.mem_map, List.mem_range] at h1
        obtain ⟨j, hj, rfl⟩ := h1
        omega
      · obtain ⟨i, hi, hoi⟩ := List.mem_flatMap.mp h2
        exact unitOffsets_bound i DataLength (List.mem_range.mp hi) o hoi

/-- Witness of C12: `write(0x1000, [0xAA]*10, 10)` reads the offsets 8 and 9 for the
remainder and 0 to 7 for the full unit. -/
theorem write_reads_stay_in_buffer_witness :
    (10 < 2 ^ 32 ∧ (List.replicate 10 0xAA).length = 10 ∧ 10 / 8 < 2)
    ∧ (OPENBL_FLASH_Write_reads (fun _ => HAL_StatusTypeDef.HAL_OK) HAL_StatusTypeDef.HAL_OK 2
        Flash.reset 0x1000 (List.replicate 10 0xAA) 10).map (fun r => r.2) =
      some [8, 9, 0, 1, 2, 3, 4, 5, 6, 7] :=
  ⟨by decide,
    (write_reads_stay_in_buffer (fun _ => HAL_StatusTypeDef.HAL_OK) HAL_StatusTypeDef.HAL_OK 2
      Flash.reset 0x1000 (List.replicate 10 0xAA) 10 (by decide) (by decide)
      (by decide)).2.2.1.trans (by decide)⟩

end OpenBL
